import Mathlib

/-!
Verification of the fabric-atelier MCP server core.

This file gives a shallow embedding of the core of the repository:

* `src/mcp/protocol.rs` — JSON-RPC envelope types and constructors,
* `src/mcp/server.rs`   — request dispatch (`initialize`, `tools/list`,
  `tools/call`, unknown methods) and catalog reload,
* `src/mcp/stdio.rs`    — per-line decode/dispatch of the transport loop,
* `src/fabric/pattern.rs` — the `Pattern` record and its `matches` predicate,
* `src/fabric/loader.rs`  — pattern ingestion, description extraction and
  keyword-based metadata extraction.

JSON values are modelled by the inductive `Json` (numbers as `Int`, which
covers every numeric literal the core manipulates).  Rust strings are
modelled by Lean `String`, and the Rust string operations used by the code
(`to_lowercase`, `contains`, `strip_prefix`, `trim`, `lines`,
`starts_with`, `chars().take(n)`, `join`, `sort`, `dedup`) are embedded as
executable char-list functions so that every definition evaluates by
`rfl`/`decide`.  The filesystem seen by the loader is modelled as a listing
of directory entries (`Entry`), each carrying the read results of its
`system.md` and `user.md` files (`none` = absent or unreadable).
-/

/-- Model of `serde_json::Value`. -/
inductive Json where
  | null : Json
  | bool (b : Bool) : Json
  | num (n : Int) : Json
  | str (s : String) : Json
  | arr (items : List Json) : Json
  | obj (members : List (String × Json)) : Json
deriving Repr

/-- First-match association lookup in an object's member list (model of
`serde_json::Map` access for objects without duplicate keys). -/
def lookupKey : List (String × Json) → String → Option Json
  | [], _ => none
  | (k, v) :: rest, key => if k = key then some v else lookupKey rest key

/-- Model of `Value::get(key)`: member lookup on objects, `None` otherwise. -/
def jsonGet (j : Json) (key : String) : Option Json :=
  match j with
  | Json.obj members => lookupKey members key
  | _ => none

/-- Model of `Value::as_str()`. -/
def asStr : Json → Option String
  | Json.str s => some s
  | _ => none

/-- Model of Rust `str::to_lowercase` (ASCII case mapping). -/
def rustLower (s : String) : String :=
  String.mk (s.data.map Char.toLower)

/-- Decide whether `needle` occurs as a contiguous sublist of `hay`
(model of Rust `str::contains` on substrings). -/
def isSubstr (needle : List Char) : List Char → Bool
  | [] => needle.isEmpty
  | a :: t => needle.isPrefixOf (a :: t) || isSubstr needle t

/-- Model of Rust `hay.contains(needle)`. -/
def strContainsB (hay needle : String) : Bool :=
  isSubstr needle.data hay.data

/-- The specification's notion of substring: `needle` occurs contiguously
inside `hay`. -/
def SubstrOf (needle hay : String) : Prop :=
  ∃ l r, hay.data = l ++ needle.data ++ r

/-- Model of Rust `str::strip_prefix`: `some` of the remainder when the
prefix matches, `none` otherwise. -/
def rustStripPfx (pre s : String) : Option String :=
  if pre.data.isPrefixOf s.data then some (String.mk (s.data.drop pre.data.length))
  else none

/-- Model of Rust `str::trim` (whitespace stripped from both ends). -/
def rustTrim (s : String) : String :=
  String.mk (((s.data.dropWhile Char.isWhitespace).reverse.dropWhile Char.isWhitespace).reverse)

/-- Model of Rust `str::starts_with`. -/
def startsWithB (s pre : String) : Bool :=
  pre.data.isPrefixOf s.data

/-- Model of Rust `s.chars().take(n).collect::<String>()`. -/
def rustTake (s : String) (n : Nat) : String :=
  String.mk (s.data.take n)

/-- Model of Rust `Vec::<&str>::join(" ")`. -/
def joinSpace : List String → String
  | [] => ""
  | [s] => s
  | s :: rest => s ++ " " ++ joinSpace rest

/-- Split a char list at newline characters; always returns at least one
segment, with an empty final segment when the input ends in a newline. -/
def splitOnNl : List Char → List (List Char)
  | [] => [[]]
  | c :: rest =>
    match splitOnNl rest with
    | [] => [[]]
    | h :: t => if c = '\n' then [] :: h :: t else (c :: h) :: t

/-- Drop one trailing carriage return, as Rust `str::lines` does per line. -/
def stripTrailCR (l : List Char) : List Char :=
  if l.getLast? = some '\r' then l.dropLast else l

/-- Model of Rust `str::lines`: split on newlines, drop the final empty
segment produced by a terminating newline, strip one trailing CR per line. -/
def rustLines (s : String) : List String :=
  let parts := splitOnNl s.data
  let parts := if parts.getLast? = some [] then parts.dropLast else parts
  parts.map (fun l => String.mk (stripTrailCR l))

/-- Byte-lexicographic comparison of char lists, modelling the `Ord`
instance Rust `Vec::sort` uses on strings. -/
def charListLeB : List Char → List Char → Bool
  | [], _ => true
  | _ :: _, [] => false
  | a :: as, b :: bs =>
    if Nat.blt a.val.toNat b.val.toNat then true
    else if Nat.blt b.val.toNat a.val.toNat then false
    else charListLeB as bs

/-- Lexicographic order on strings used by `Vec::<String>::sort`. -/
def strLeB (a b : String) : Bool :=
  charListLeB a.data b.data

/-- Insert an element into a sorted list (helper for `rustSort`). -/
def insertSorted (x : String) : List String → List String
  | [] => [x]
  | y :: ys => if strLeB x y then x :: y :: ys else y :: insertSorted x ys

/-- Model of Rust `Vec::<String>::sort()`: sorts ascending by the
lexicographic order.  Rust uses a stable sort; since equal strings are
identical values, any sort by the same total order produces the same
list, so insertion sort is an exact model. -/
def rustSort : List String → List String
  | [] => []
  | x :: xs => insertSorted x (rustSort xs)

/-- Remove the elements of a run equal to the previous kept element
(helper for `rustDedup`). -/
def dedupRun (prev : String) : List String → List String
  | [] => []
  | b :: rest => if b = prev then dedupRun prev rest else b :: dedupRun b rest

/-- Model of Rust `Vec::dedup()`: removes consecutive duplicates. -/
def rustDedup : List String → List String
  | [] => []
  | a :: rest => a :: dedupRun a rest

/-- Model of the `Pattern` record of `src/fabric/pattern.rs`.  The source
location (`path`, a `PathBuf` in Rust) is modelled by the directory name,
and the last-modified `SystemTime` by a natural number. -/
structure Pattern where
  name : String
  description : String
  systemPrompt : String
  userPrompt : Option String
  category : Option String
  tags : List String
  path : String
  modified : Nat
deriving Repr, DecidableEq

/-- Model of `Pattern::tool_name`: the pattern name under the `fabric_`
naming convention. -/
def Pattern.toolName (p : Pattern) : String :=
  "fabric_" ++ p.name

/-- Model of `Pattern::matches` (`src/fabric/pattern.rs` lines 115–126):
case-insensitive substring search over name, description, tags and the
optional category. -/
def Pattern.matches (p : Pattern) (query : String) : Bool :=
  let queryLower := rustLower query
  strContainsB (rustLower p.name) queryLower
    || strContainsB (rustLower p.description) queryLower
    || p.tags.any (fun tag => strContainsB (rustLower tag) queryLower)
    || ((p.category.map (fun c => strContainsB (rustLower c) queryLower)).getD false)

/-- Marker test of `extract_description`: a line mentioning the
`# IDENTITY` or `# PURPOSE` section header. -/
def isMarkerLine (l : String) : Bool :=
  strContainsB l "# IDENTITY" || strContainsB l "# PURPOSE"

/-- Candidate description line: non-empty after trimming, and not a
header once trimmed (`src/fabric/loader.rs` line 174). -/
def goodLine (l : String) : Bool :=
  !(rustTrim l).data.isEmpty && !(startsWithB (rustTrim l) "#")

/-- The nested search loops of `extract_description`
(`src/fabric/loader.rs` lines 169–179): find a marker line, then return
the first following non-empty non-header line trimmed; when a marker has
no such successor, keep scanning the remaining lines for further markers. -/
def findAfterMarker : List String → Option String
  | [] => none
  | l :: rest =>
    if isMarkerLine l then
      match List.find? goodLine rest with
      | some d => some (rustTrim d)
      | none => findAfterMarker rest
    else findAfterMarker rest

/-- Fallback of `extract_description` (`src/fabric/loader.rs` lines
182–190): skip empty and `#`-initial lines, take the first contiguous run
of non-empty lines, join with spaces, truncate to 200 characters. -/
def fallbackDesc (lines : List String) : String :=
  rustTake
    (joinSpace
      ((lines.dropWhile (fun l => (rustTrim l).data.isEmpty || startsWithB l "#")).takeWhile
        (fun l => !(rustTrim l).data.isEmpty)))
    200

/-- Model of `extract_description` (`src/fabric/loader.rs` lines 165–191). -/
def extract_description (content : String) : String :=
  match findAfterMarker (rustLines content) with
  | some d => d
  | none => fallbackDesc (rustLines content)

/-- Model of `extract_metadata` (`src/fabric/loader.rs` lines 196–238):
five keyword groups applied in order to the lower-cased content; the
first three may set the category (never overriding an earlier one), all
five push tags; the tag list is then sorted and deduplicated. -/
def extract_metadata (content : String) : Option String × List String :=
  let lower := rustLower content
  let hitSec := strContainsB lower "security" || strContainsB lower "threat" || strContainsB lower "vulnerability"
  let category : Option String := if hitSec then some "security" else none
  let tags : List String := if hitSec then ["security"] else []
  let hitWri := strContainsB lower "writing" || strContainsB lower "essay" || strContainsB lower "article"
  let category := if hitWri && category.isNone then some "writing" else category
  let tags := if hitWri then tags ++ ["writing"] else tags
  let hitCod := strContainsB lower "code" || strContainsB lower "programming" || strContainsB lower "software"
  let category := if hitCod && category.isNone then some "coding" else category
  let tags := if hitCod then tags ++ ["coding"] else tags
  let hitAna := strContainsB lower "analyze" || strContainsB lower "analysis" || strContainsB lower "extract"
  let tags := if hitAna then tags ++ ["analysis"] else tags
  let hitSum := strContainsB lower "summarize" || strContainsB lower "summary"
  let tags := if hitSum then tags ++ ["summarization"] else tags
  (category, rustDedup (rustSort tags))

/-- One rule group of the specification's static keyword table: trigger
substrings, an optional category effect, tags to accumulate. -/
structure MetaRule where
  triggers : List String
  category : Option String
  tags : List String
deriving Repr

/-- The fixed ordered rule table of the specification, read off the five
keyword groups of `extract_metadata`. -/
def metadataRules : List MetaRule :=
  [ { triggers := ["security", "threat", "vulnerability"], category := some "security", tags := ["security"] },
    { triggers := ["writing", "essay", "article"], category := some "writing", tags := ["writing"] },
    { triggers := ["code", "programming", "software"], category := some "coding", tags := ["coding"] },
    { triggers := ["analyze", "analysis", "extract"], category := none, tags := ["analysis"] },
    { triggers := ["summarize", "summary"], category := none, tags := ["summarization"] } ]

/-- Declarative form of metadata extraction: fold the rule table over the
lower-cased content, first matching category-setting group wins, tags
accumulate across every matching group, final tag list sorted and
deduplicated. -/
def applyRules (rules : List MetaRule) (content : String) : Option String × List String :=
  let lower := rustLower content
  let acc := rules.foldl
    (fun acc r =>
      if r.triggers.any (fun t => strContainsB lower t) then
        ((if acc.1.isNone then r.category else acc.1), acc.2 ++ r.tags)
      else acc)
    (none, [])
  (acc.1, rustDedup (rustSort acc.2))

/-- Model of one directory entry seen by `PatternLoader::load_all`: the
subdirectory name, whether the entry is a directory, and the outcomes of
reading `system.md` and `user.md` (`none` = absent or unreadable), plus
the outcome of reading the directory's modification time. -/
structure Entry where
  name : String
  isDir : Bool
  systemMd : Option String
  userMd : Option String
  modified : Option Nat
deriving Repr

/-- Model of `PatternLoader::load_pattern` (`src/fabric/loader.rs` lines
117–154): `system.md` is required, `user.md` is optional (any read
failure is treated as absence), description and metadata are derived
from the system prompt. -/
def loadPattern (e : Entry) : Except String Pattern :=
  match e.systemMd with
  | none => Except.error ("Failed to read system.md for pattern " ++ e.name)
  | some systemPrompt =>
    match e.modified with
    | none => Except.error ("Failed to read metadata for pattern " ++ e.name)
    | some modified =>
      let description := extract_description systemPrompt
      let meta := extract_metadata systemPrompt
      Except.ok
        { name := e.name
          description := description
          systemPrompt := systemPrompt
          userPrompt := e.userMd
          category := meta.1
          tags := meta.2
          path := e.name
          modified := modified }

/-- Model of `PatternLoader::load_all` (`src/fabric/loader.rs` lines
82–104): an error listing the directory aborts the batch; otherwise
non-directory entries are ignored, and each directory entry whose
`load_pattern` fails is logged and skipped while successes are collected
in scan order. -/
def loadAll (listing : Except String (List Entry)) : Except String (List Pattern) :=
  match listing with
  | Except.error e => Except.error e
  | Except.ok entries =>
    Except.ok (entries.filterMap (fun e => if e.isDir then (loadPattern e).toOption else none))

/-- Standard JSON-RPC error code for malformed requests. -/
def PARSE_ERROR : Int := -32700

/-- Standard JSON-RPC error code for unknown methods. -/
def METHOD_NOT_FOUND : Int := -32601

/-- Standard JSON-RPC error code reused for all domain-level failures. -/
def INTERNAL_ERROR : Int := -32603

/-- Model of the `JsonRpcRequest` struct of `src/mcp/protocol.rs`. -/
structure JsonRpcRequest where
  jsonrpc : String
  id : Json
  method : String
  params : Json
deriving Repr

/-- Model of the `JsonRpcError` struct of `src/mcp/protocol.rs`. -/
structure JsonRpcError where
  code : Int
  message : String
  data : Option Json
deriving Repr

/-- Model of the `JsonRpcResponse` struct of `src/mcp/protocol.rs`:
exactly one of `result` and `error` is populated by the constructors. -/
structure JsonRpcResponse where
  jsonrpc : String
  id : Json
  result : Option Json
  error : Option JsonRpcError
deriving Repr

/-- Model of `JsonRpcResponse::success`. -/
def JsonRpcResponse.success (id : Json) (result : Json) : JsonRpcResponse :=
  { jsonrpc := "2.0", id := id, result := some result, error := none }

/-- Model of the `JsonRpcResponse::error` constructor (named `mkError`
here because `error` is already the field projection). -/
def JsonRpcResponse.mkError (id : Json) (code : Int) (message : String) : JsonRpcResponse :=
  { jsonrpc := "2.0", id := id, result := none,
    error := some { code := code, message := message, data := none } }

/-- Model of `JsonRpcResponse::error_with_data`. -/
def JsonRpcResponse.mkErrorWithData (id : Json) (code : Int) (message : String) (data : Json) :
    JsonRpcResponse :=
  { jsonrpc := "2.0", id := id, result := none,
    error := some { code := code, message := message, data := some data } }

/-- Model of serde deserialization of `JsonRpcRequest` from a JSON value:
`jsonrpc` and `method` must be strings, `id` must be present (any value),
`params` defaults via `#[serde(default)]`, i.e. to `Value::Null`. -/
def decodeRequest (j : Json) : Except String JsonRpcRequest :=
  match j with
  | Json.obj members =>
    match lookupKey members "jsonrpc" with
    | some (Json.str ver) =>
      match lookupKey members "id" with
      | some idv =>
        match lookupKey members "method" with
        | some (Json.str m) =>
          Except.ok
            { jsonrpc := ver, id := idv, method := m,
              params := (lookupKey members "params").getD Json.null }
        | some _ => Except.error "invalid type for field method"
        | none => Except.error "missing field method"
      | none => Except.error "missing field id"
    | some _ => Except.error "invalid type for field jsonrpc"
    | none => Except.error "missing field jsonrpc"
  | _ => Except.error "expected an object"

/-- Static server metadata (`Settings::server` of `src/config/settings.rs`). -/
structure ServerInfo where
  name : String
  version : String
deriving Repr

/-- Model of `McpServer::handle_initialize`. -/
def handleInitialize (info : ServerInfo) (id : Json) : JsonRpcResponse :=
  JsonRpcResponse.success id
    (Json.obj
      [ ("protocolVersion", Json.str "2024-11-05"),
        ("capabilities", Json.obj [("tools", Json.obj [])]),
        ("serverInfo", Json.obj [("name", Json.str info.name), ("version", Json.str info.version)]) ])

/-- Projection of the catalog into tool descriptors, the body of
`handle_tools_list` (`src/mcp/server.rs` lines 108–126). -/
def toolsProjection (patterns : List Pattern) : List Json :=
  patterns.map (fun p =>
    Json.obj
      [ ("name", Json.str p.toolName),
        ("description", Json.str p.description),
        ("inputSchema", Json.obj
          [ ("type", Json.str "object"),
            ("properties", Json.obj
              [ ("content", Json.obj
                  [ ("type", Json.str "string"),
                    ("description", Json.str "The content to process with this pattern") ]) ]),
            ("required", Json.arr [Json.str "content"]) ]) ])

/-- Model of `McpServer::handle_tools_list` applied to the catalog
snapshot obtained under the read lock. -/
def handleToolsList (patterns : List Pattern) (id : Json) : JsonRpcResponse :=
  JsonRpcResponse.success id (Json.obj [("tools", Json.arr (toolsProjection patterns))])

/-- Model of `McpServer::handle_tools_call` (`src/mcp/server.rs` lines
139–213) applied to the catalog snapshot obtained under the read lock. -/
def handleToolsCall (patterns : List Pattern) (id : Json) (params : Json) : JsonRpcResponse :=
  match (jsonGet params "name").bind asStr with
  | none => JsonRpcResponse.mkError id INTERNAL_ERROR "Missing tool name"
  | some toolName =>
    match rustStripPfx "fabric_" toolName with
    | none => JsonRpcResponse.mkError id INTERNAL_ERROR ("Invalid tool name: " ++ toolName)
    | some patternName =>
      match ((jsonGet params "arguments").bind (fun args => jsonGet args "content")).bind asStr with
      | none => JsonRpcResponse.mkError id INTERNAL_ERROR "Missing content argument"
      | some content =>
        match List.find? (fun p => p.name == patternName) patterns with
        | none => JsonRpcResponse.mkError id INTERNAL_ERROR ("Pattern not found: " ++ patternName)
        | some pat =>
          let promptText :=
            match pat.userPrompt with
            | some userPrompt =>
              "# System Prompt\n\n" ++ pat.systemPrompt ++ "\n\n# User Prompt Template\n\n"
                ++ userPrompt ++ "\n\n# Content to Process\n\n" ++ content
            | none =>
              "# System Prompt\n\n" ++ pat.systemPrompt ++ "\n\n# Content to Process\n\n" ++ content
          JsonRpcResponse.success id
            (Json.obj
              [ ("content", Json.arr
                  [ Json.obj [("type", Json.str "text"), ("text", Json.str promptText)] ]) ])

/-- Model of `McpServer::method_not_found`. -/
def methodNotFound (id : Json) : JsonRpcResponse :=
  JsonRpcResponse.mkError id METHOD_NOT_FOUND "Method not found"

/-- Model of `McpServer::handle_request`: dispatch on the method name. -/
def handleRequest (info : ServerInfo) (patterns : List Pattern) (req : JsonRpcRequest) :
    JsonRpcResponse :=
  if req.method = "initialize" then handleInitialize info req.id
  else if req.method = "tools/list" then handleToolsList patterns req.id
  else if req.method = "tools/call" then handleToolsCall patterns req.id req.params
  else methodNotFound req.id

/-- Model of the per-line decode/dispatch step of `run_stdio_server`
(`src/mcp/stdio.rs` lines 67–76) for a line that parsed as a JSON value:
structural decode failure yields a parse-error response addressed to the
null identifier. -/
def dispatchDecoded (info : ServerInfo) (patterns : List Pattern) (j : Json) : JsonRpcResponse :=
  match decodeRequest j with
  | Except.ok req => handleRequest info patterns req
  | Except.error e => JsonRpcResponse.mkError Json.null PARSE_ERROR ("Parse error: " ++ e)

/-- Model of `McpServer::reload_patterns` (`src/mcp/server.rs` lines
223–229): ingestion runs to completion first; only on success is the
catalog slot replaced (the `?` operator returns before the write lock is
taken), so a failed reload leaves the slot untouched. -/
def reload_patterns (slot : List Pattern) (listing : Except String (List Entry)) :
    Except String Unit × List Pattern :=
  match loadAll listing with
  | Except.ok ps => (Except.ok (), ps)
  | Except.error e => (Except.error e, slot)

/-- Catalog slot content after a prefix of reload events: each completed
reload atomically replaces the whole slot (the write-lock assignment of
`reload_patterns`). -/
def catalogAfter (init : List Pattern) (reloads : List (List Pattern)) : List Pattern :=
  reloads.foldl (fun _ ps => ps) init

/-- The boolean substring test agrees with the contiguous-sublist relation. -/
theorem isSubstr_iff (n : List Char) (h : List Char) : isSubstr n h = true ↔ n <:+: h := by
  induction h with
  | nil => simp [isSubstr, List.isEmpty_iff, List.infix_nil]
  | cons a t ih =>
    simp [isSubstr, Bool.or_eq_true, ih, List.infix_cons_iff, List.isPrefixOf_iff_prefix]

/-- The embedded `str::contains` agrees with the specification's substring
relation `SubstrOf`. -/
theorem strContains_iff (hay needle : String) :
    strContainsB hay needle = true ↔ SubstrOf needle hay := by
  rw [strContainsB, isSubstr_iff]
  constructor
  · rintro ⟨s, t, h⟩; exact ⟨s, t, h.symm⟩
  · rintro ⟨s, t, h⟩; exact ⟨s, t, h.symm⟩

/-- C4: `Pattern::matches` returns true exactly when the lower-cased query
is a substring of the lower-cased name, or of the lower-cased description,
or of some lower-cased tag, or of the lower-cased category when a category
is present; the last disjunct requires `category = some c`, so a pattern
with no category can never match through the category clause. -/
theorem matches_characterization (p : Pattern) (q : String) :
    p.matches q = true ↔
      (SubstrOf (rustLower q) (rustLower p.name)
        ∨ SubstrOf (rustLower q) (rustLower p.description)
        ∨ (∃ t ∈ p.tags, SubstrOf (rustLower q) (rustLower t))
        ∨ (∃ c, p.category = some c ∧ SubstrOf (rustLower q) (rustLower c))) := by
  cases hc : p.category <;>
    simp [Pattern.matches, hc, Bool.or_eq_true, List.any_eq_true, strContains_iff, or_assoc]

/-- C5: metadata extraction is the first-match-wins / tag-accumulating
application of the fixed ordered rule table `metadataRules` to the
lower-cased content (the category set by the first matching
category-setting group is never overridden by later groups, and tags
accumulate across all matching groups), and the returned tag list is
sorted and duplicate-free. -/
theorem extract_metadata_rule_table (content : String) :
    extract_metadata content = applyRules metadataRules content
      ∧ List.Pairwise (fun a b => strLeB a b = true) (extract_metadata content).2
      ∧ List.Nodup (extract_metadata content).2 := by
  unfold extract_metadata applyRules metadataRules
  simp only [List.foldl_cons, List.foldl_nil, List.any_cons, List.any_nil,
    Bool.or_false, Bool.or_assoc]
  generalize (strContainsB (rustLower content) "security"
      || (strContainsB (rustLower content) "threat"
      || strContainsB (rustLower content) "vulnerability")) = b1
  generalize (strContainsB (rustLower content) "writing"
      || (strContainsB (rustLower content) "essay"
      || strContainsB (rustLower content) "article")) = b2
  generalize (strContainsB (rustLower content) "code"
      || (strContainsB (rustLower content) "programming"
      || strContainsB (rustLower content) "software")) = b3
  generalize (strContainsB (rustLower content) "analyze"
      || (strContainsB (rustLower content) "analysis"
      || strContainsB (rustLower content) "extract")) = b4
  generalize (strContainsB (rustLower content) "summarize"
      || strContainsB (rustLower content) "summary") = b5
  cases b1 <;> cases b2 <;> cases b3 <;> cases b4 <;> cases b5 <;> decide

/-- When the first marker line is followed (anywhere below it) by a
non-empty non-header line, the marker search returns that line trimmed. -/
theorem findAfterMarker_append (pre : List String) (m : String) (post : List String) (l : String)
    (hpre : ∀ x ∈ pre, isMarkerLine x = false) (hm : isMarkerLine m = true)
    (hfind : List.find? goodLine post = some l) :
    findAfterMarker (pre ++ m :: post) = some (rustTrim l) := by
  induction pre with
  | nil => simp [findAfterMarker, hm, hfind]
  | cons p rest ih =>
    have hp : isMarkerLine p = false := hpre p (by simp)
    have htail := ih (fun x hx => hpre x (by simp [hx]))
    simpa [findAfterMarker, hp] using htail

/-- Without any marker line the marker search fails. -/
theorem findAfterMarker_none (lines : List String)
    (h : ∀ x ∈ lines, isMarkerLine x = false) : findAfterMarker lines = none := by
  induction lines with
  | nil => rfl
  | cons p rest ih =>
    have hp : isMarkerLine p = false := h p (by simp)
    simpa [findAfterMarker, hp] using ih (fun x hx => h x (by simp [hx]))

/-- C6: description extraction scans the lines for a marker line
(`# IDENTITY` or `# PURPOSE`); when the first marker is followed by some
non-empty non-header line, the first such line is returned trimmed; when
no line contains a marker, the result is the first contiguous run of
non-empty lines (starting after any leading empty or `#`-initial lines)
joined by single spaces and truncated to 200 characters. -/
theorem extract_description_characterization :
    (∀ (content : String) (pre : List String) (m : String) (post : List String) (l : String),
        rustLines content = pre ++ m :: post →
        (∀ x ∈ pre, isMarkerLine x = false) →
        isMarkerLine m = true →
        List.find? goodLine post = some l →
        extract_description content = rustTrim l)
    ∧ (∀ content : String,
        (∀ x ∈ rustLines content, isMarkerLine x = false) →
        extract_description content =
          rustTake
            (joinSpace
              (((rustLines content).dropWhile
                  (fun ln => (rustTrim ln).data.isEmpty || startsWithB ln "#")).takeWhile
                (fun ln => !(rustTrim ln).data.isEmpty)))
            200) := by
  constructor
  · intro content pre m post l hlines hpre hm hfind
    unfold extract_description
    rw [hlines, findAfterMarker_append pre m post l hpre hm hfind]
  · intro content h
    unfold extract_description
    rw [findAfterMarker_none _ h]
    rfl

/-- Witness for C6: on a `# IDENTITY` prompt the description is the line
after the marker, and on a marker-free prompt it is the first paragraph. -/
theorem extract_description_characterization_witness :
    extract_description "# IDENTITY\n\nYou are a helpful assistant.\n\n# STEPS"
        = "You are a helpful assistant."
      ∧ extract_description "This is a pattern.\n\nIt does things." = "This is a pattern." :=
  ⟨extract_description_characterization.1
      "# IDENTITY\n\nYou are a helpful assistant.\n\n# STEPS"
      [] "# IDENTITY" ["", "You are a helpful assistant.", "", "# STEPS"]
      "You are a helpful assistant."
      rfl (fun x hx => nomatch hx) rfl rfl,
    extract_description_characterization.2
      "This is a pattern.\n\nIt does things." (by decide)⟩

/-- Stripping the `fabric_` prefix from a prefixed tool name recovers the
pattern name. -/
theorem stripPfx_fabric (p : String) : rustStripPfx "fabric_" ("fabric_" ++ p) = some p := by
  unfold rustStripPfx
  rw [String.data_append]
  have hpre : "fabric_".data.isPrefixOf ("fabric_".data ++ p.data) = true := by
    simp [ List.isPrefixOf_iff_prefix, List.prefix_append]
  have hlen : "fabric_".data.length = 7 := by decide
  simp only [hpre, if_true, hlen]
  have hdrop : ("fabric_".data ++ p.data).drop 7 = p.data := List.drop_left "fabric_".data p.data
  rw [hdrop]

/-- C1: a `tools/call` whose params name a catalogued pattern through the
`fabric_` prefix and supply a string `arguments.content` succeeds with a
single `"text"` content item whose text is the pattern's system prompt,
then the user prompt section only when present, then the caller content,
each under its labeled section. -/
theorem tools_call_success (patterns : List Pattern) (id params : Json)
    (pname content : String) (pat : Pattern)
    (hname : jsonGet params "name" = some (Json.str ("fabric_" ++ pname)))
    (hcontent : (jsonGet params "arguments").bind (fun args => jsonGet args "content")
        = some (Json.str content))
    (hfind : List.find? (fun p => p.name == pname) patterns = some pat) :
    handleToolsCall patterns id params =
      JsonRpcResponse.success id
        (Json.obj
          [ ("content", Json.arr
              [ Json.obj
                  [ ("type", Json.str "text"),
                    ("text", Json.str
                      ("# System Prompt\n\n" ++ pat.systemPrompt
                        ++ (match pat.userPrompt with
                            | some u => "\n\n# User Prompt Template\n\n" ++ u
                            | none => "")
                        ++ "\n\n# Content to Process\n\n" ++ content)) ] ]) ]) := by
  unfold handleToolsCall
  rw [hname, hcontent]
  simp only [Option.bind_some, Option.bind, asStr, stripPfx_fabric, hfind]
  cases hu : pat.userPrompt <;>
    simp [hu, String.append_assoc, String.append_empty]

/-- Witness for C1: a concrete call of `fabric_summarize` with content
`"hello"` against a one-pattern catalog yields the composed prompt. -/
theorem tools_call_success_witness :
    handleToolsCall
        [ { name := "summarize", description := "Summarize content",
            systemPrompt := "You are a summarizer", userPrompt := some "Summarize this",
            category := some "writing", tags := ["summarization", "writing"],
            path := "patterns/summarize", modified := 0 } ]
        (Json.num 1)
        (Json.obj
          [ ("name", Json.str "fabric_summarize"),
            ("arguments", Json.obj [("content", Json.str "hello")]) ]) =
      JsonRpcResponse.success (Json.num 1)
        (Json.obj
          [ ("content", Json.arr
              [ Json.obj
                  [ ("type", Json.str "text"),
                    ("text", Json.str
                      "# System Prompt\n\nYou are a summarizer\n\n# User Prompt Template\n\nSummarize this\n\n# Content to Process\n\nhello") ] ]) ]) :=
  tools_call_success
    [ { name := "summarize", description := "Summarize content",
        systemPrompt := "You are a summarizer", userPrompt := some "Summarize this",
        category := some "writing", tags := ["summarization", "writing"],
        path := "patterns/summarize", modified := 0 } ]
    (Json.num 1)
    (Json.obj
      [ ("name", Json.str "fabric_summarize"),
        ("arguments", Json.obj [("content", Json.str "hello")]) ])
    "summarize" "hello"
    { name := "summarize", description := "Summarize content",
      systemPrompt := "You are a summarizer", userPrompt := some "Summarize this",
      category := some "writing", tags := ["summarization", "writing"],
      path := "patterns/summarize", modified := 0 }
    rfl rfl rfl

/-- C2: every domain-level failure of `tools/call` (missing `params.name`,
tool name without the `fabric_` prefix, missing `arguments.content`,
pattern not found) produces an error response with code `-32603`, no
result, and a message identifying the cause; any method other than
`initialize`, `tools/list` and `tools/call` produces an error response
with code `-32601`. -/
theorem tools_call_errors :
    (∀ (patterns : List Pattern) (id params : Json),
        (jsonGet params "name").bind asStr = none →
        (handleToolsCall patterns id params).result = none
          ∧ (handleToolsCall patterns id params).error
              = some { code := -32603, message := "Missing tool name", data := none })
    ∧ (∀ (patterns : List Pattern) (id params : Json) (tn : String),
        (jsonGet params "name").bind asStr = some tn →
        rustStripPfx "fabric_" tn = none →
        (handleToolsCall patterns id params).result = none
          ∧ (handleToolsCall patterns id params).error
              = some { code := -32603, message := "Invalid tool name: " ++ tn, data := none })
    ∧ (∀ (patterns : List Pattern) (id params : Json) (tn pn : String),
        (jsonGet params "name").bind asStr = some tn →
        rustStripPfx "fabric_" tn = some pn →
        ((jsonGet params "arguments").bind (fun args => jsonGet args "content")).bind asStr
          = none →
        (handleToolsCall patterns id params).result = none
          ∧ (handleToolsCall patterns id params).error
              = some { code := -32603, message := "Missing content argument", data := none })
    ∧ (∀ (patterns : List Pattern) (id params : Json) (tn pn c : String),
        (jsonGet params "name").bind asStr = some tn →
        rustStripPfx "fabric_" tn = some pn →
        ((jsonGet params "arguments").bind (fun args => jsonGet args "content")).bind asStr
          = some c →
        List.find? (fun p => p.name == pn) patterns = none →
        (handleToolsCall patterns id params).result = none
          ∧ (handleToolsCall patterns id params).error
              = some { code := -32603, message := "Pattern not found: " ++ pn, data := none })
    ∧ (∀ (info : ServerInfo) (patterns : List Pattern) (req : JsonRpcRequest),
        req.method ≠ "initialize" → req.method ≠ "tools/list" → req.method ≠ "tools/call" →
        (handleRequest info patterns req).result = none
          ∧ (handleRequest info patterns req).error
              = some { code := -32601, message := "Method not found", data := none }) := by
  refine ⟨?_, ?_, ?_, ?_, ?_⟩
  · intro patterns id params h
    simp [handleToolsCall, h, JsonRpcResponse.mkError, INTERNAL_ERROR]
  · intro patterns id params tn h1 h2
    simp [handleToolsCall, h1, h2, JsonRpcResponse.mkError, INTERNAL_ERROR]
  · intro patterns id params tn pn h1 h2 h3
    simp [handleToolsCall, h1, h2, h3, JsonRpcResponse.mkError, INTERNAL_ERROR]
  · intro patterns id params tn pn c h1 h2 h3 h4
    simp [handleToolsCall, h1, h2, h3, h4, JsonRpcResponse.mkError, INTERNAL_ERROR]
  · intro info patterns req h1 h2 h3
    simp [handleRequest, h1, h2, h3, methodNotFound, JsonRpcResponse.mkError, METHOD_NOT_FOUND]

/-- Witness for C2: concrete requests exercising all four `tools/call`
failure branches and an unknown method. -/
theorem tools_call_errors_witness :
    ((handleToolsCall [] (Json.num 1) (Json.obj [])).result = none
      ∧ (handleToolsCall [] (Json.num 1) (Json.obj [])).error
          = some { code := -32603, message := "Missing tool name", data := none })
    ∧ ((handleToolsCall [] (Json.num 2) (Json.obj [("name", Json.str "not_prefixed")])).result
          = none
      ∧ (handleToolsCall [] (Json.num 2) (Json.obj [("name", Json.str "not_prefixed")])).error
          = some { code := -32603, message := "Invalid tool name: not_prefixed", data := none })
    ∧ ((handleToolsCall [] (Json.num 3) (Json.obj [("name", Json.str "fabric_x")])).result = none
      ∧ (handleToolsCall [] (Json.num 3) (Json.obj [("name", Json.str "fabric_x")])).error
          = some { code := -32603, message := "Missing content argument", data := none })
    ∧ ((handleToolsCall [] (Json.num 4)
            (Json.obj
              [ ("name", Json.str "fabric_x"),
                ("arguments", Json.obj [("content", Json.str "hi")]) ])).result = none
      ∧ (handleToolsCall [] (Json.num 4)
            (Json.obj
              [ ("name", Json.str "fabric_x"),
                ("arguments", Json.obj [("content", Json.str "hi")]) ])).error
          = some { code := -32603, message := "Pattern not found: x", data := none })
    ∧ ((handleRequest { name := "fabric-atelier", version := "0.1.0" } []
            { jsonrpc := "2.0", id := Json.num 5, method := "unknown/method",
              params := Json.obj [] }).result = none
      ∧ (handleRequest { name := "fabric-atelier", version := "0.1.0" } []
            { jsonrpc := "2.0", id := Json.num 5, method := "unknown/method",
              params := Json.obj [] }).error
          = some { code := -32601, message := "Method not found", data := none }) :=
  ⟨tools_call_errors.1 [] (Json.num 1) (Json.obj []) rfl,
    tools_call_errors.2.1 [] (Json.num 2) (Json.obj [("name", Json.str "not_prefixed")])
      "not_prefixed" rfl rfl,
    tools_call_errors.2.2.1 [] (Json.num 3) (Json.obj [("name", Json.str "fabric_x")])
      "fabric_x" "x" rfl rfl rfl,
    tools_call_errors.2.2.2.1 [] (Json.num 4)
      (Json.obj
        [ ("name", Json.str "fabric_x"),
          ("arguments", Json.obj [("content", Json.str "hi")]) ])
      "fabric_x" "x" "hi" rfl rfl rfl rfl,
    tools_call_errors.2.2.2.2 { name := "fabric-atelier", version := "0.1.0" } []
      { jsonrpc := "2.0", id := Json.num 5, method := "unknown/method", params := Json.obj [] }
      (by decide) (by decide) (by decide)⟩

/-- An `Except` converts to `some` exactly when it is `ok`. -/
theorem exceptToOption_eq_some {x : Except String Pattern} {p : Pattern} :
    x.toOption = some p ↔ x = Except.ok p := by
  cases x <;> simp [Except.toOption]

/-- C3: an ingestion run over a successfully listed directory never
aborts: it returns exactly the patterns of the entries whose build
succeeded; an entry without readable `system.md` fails alone (and is
thereby skipped), while an unreadable or absent `user.md` still yields a
pattern, with the secondary content recorded as absent. -/
theorem load_all_skips_failures (entries : List Entry) :
    (∃ ps, loadAll (Except.ok entries) = Except.ok ps
      ∧ ∀ p, p ∈ ps ↔ ∃ e ∈ entries, e.isDir = true ∧ loadPattern e = Except.ok p)
    ∧ (∀ e : Entry, e.systemMd = none → ∃ msg, loadPattern e = Except.error msg)
    ∧ (∀ (e : Entry) (s : String) (t : Nat), e.systemMd = some s → e.modified = some t →
        ∃ p, loadPattern e = Except.ok p ∧ p.userPrompt = e.userMd) := by
  refine ⟨⟨_, rfl, ?_⟩, ?_, ?_⟩
  · intro p
    rw [List.mem_filterMap]
    constructor
    · rintro ⟨e, he, hf⟩
      by_cases hd : e.isDir = true
      · rw [if_pos hd] at hf
        exact ⟨e, he, hd, exceptToOption_eq_some.1 hf⟩
      · rw [if_neg hd] at hf
        cases hf
    · rintro ⟨e, he, hd, hok⟩
      refine ⟨e, he, ?_⟩
      rw [if_pos hd, hok]
      rfl
  · intro e h
    simp [loadPattern, h]
  · intro e s t hs ht
    simp [loadPattern, hs, ht]

/-- Witness for C3: a two-entry listing with one valid pattern and one
entry missing `system.md` loads without error, keeps exactly the valid
pattern, and records the missing `user.md` of the valid entry as absent. -/
theorem load_all_skips_failures_witness :
    (∃ ps,
        loadAll (Except.ok
            [ { name := "summarize", isDir := true, systemMd := some "Summarize content",
                userMd := none, modified := some 7 },
              { name := "broken", isDir := true, systemMd := none,
                userMd := some "ignored", modified := some 7 } ])
          = Except.ok ps
      ∧ ∀ p, p ∈ ps ↔ ∃ e ∈
          [ { name := "summarize", isDir := true, systemMd := some "Summarize content",
              userMd := none, modified := some 7 },
            { name := "broken", isDir := true, systemMd := none,
              userMd := some "ignored", modified := some 7 } ],
          e.isDir = true ∧ loadPattern e = Except.ok p)
    ∧ (∃ msg, loadPattern
          { name := "broken", isDir := true, systemMd := none,
            userMd := some "ignored", modified := some 7 } = Except.error msg)
    ∧ (∃ p, loadPattern
          { name := "summarize", isDir := true, systemMd := some "Summarize content",
            userMd := none, modified := some 7 } = Except.ok p
        ∧ p.userPrompt = Entry.userMd
            { name := "summarize", isDir := true, systemMd := some "Summarize content",
              userMd := none, modified := some 7 }) :=
  ⟨(load_all_skips_failures _).1,
    (load_all_skips_failures
        [ { name := "summarize", isDir := true, systemMd := some "Summarize content",
            userMd := none, modified := some 7 },
          { name := "broken", isDir := true, systemMd := none,
            userMd := some "ignored", modified := some 7 } ]).2.1
      { name := "broken", isDir := true, systemMd := none,
        userMd := some "ignored", modified := some 7 } rfl,
    (load_all_skips_failures
        [ { name := "summarize", isDir := true, systemMd := some "Summarize content",
            userMd := none, modified := some 7 },
          { name := "broken", isDir := true, systemMd := none,
            userMd := some "ignored", modified := some 7 } ]).2.2
      { name := "summarize", isDir := true, systemMd := some "Summarize content",
        userMd := none, modified := some 7 } "Summarize content" 7 rfl rfl⟩

/-- Counterexample for C7: decoding a request without a `params` member
yields `params = null` (the `serde` default for `Value`), and `null` is
not the empty object. -/
theorem params_default_counterexample :
    (decodeRequest
        (Json.obj
          [ ("jsonrpc", Json.str "2.0"), ("id", Json.num 1),
            ("method", Json.str "tools/list") ])).map (fun r => r.params)
      = Except.ok Json.null
    ∧ Json.null ≠ Json.obj [] :=
  ⟨rfl, fun h => Json.noConfusion h⟩

/-- C7 (amended): when `params` is omitted, a successfully decoded
request carries `params = null`, and member lookup on `null` gives the
same (absent) answer as on an empty object for every key, so the
handlers' field accesses cannot distinguish the two. -/
theorem params_default_null (members : List (String × Json)) (r : JsonRpcRequest)
    (hnone : lookupKey members "params" = none)
    (hok : decodeRequest (Json.obj members) = Except.ok r) :
    r.params = Json.null ∧ ∀ k, jsonGet r.params k = jsonGet (Json.obj []) k := by
  simp only [decodeRequest] at hok
  rcases h1 : lookupKey members "jsonrpc" with _ | v
  · rw [h1] at hok; exact absurd hok (by simp)
  · rw [h1] at hok
    cases v
    case str ver =>
      rcases h2 : lookupKey members "id" with _ | idv
      · rw [h2] at hok; exact absurd hok (by simp)
      · rw [h2] at hok
        rcases h3 : lookupKey members "method" with _ | m
        · rw [h3] at hok; exact absurd hok (by simp)
        · rw [h3] at hok
          cases m
          case str meth =>
            rw [hnone] at hok
            cases hok
            exact ⟨rfl, fun k => rfl⟩
          all_goals exact absurd hok (by simp)
    all_goals exact absurd hok (by simp)

/-- Witness for C7 (amended): the concrete `tools/list` request without
`params` decodes with `params = null`, indistinguishable from `{}` under
lookup. -/
theorem params_default_null_witness :
    ({ jsonrpc := "2.0", id := Json.num 1, method := "tools/list",
        params := Json.null } : JsonRpcRequest).params = Json.null
    ∧ ∀ k, jsonGet
        ({ jsonrpc := "2.0", id := Json.num 1, method := "tools/list",
            params := Json.null } : JsonRpcRequest).params k
        = jsonGet (Json.obj []) k :=
  params_default_null
    [ ("jsonrpc", Json.str "2.0"), ("id", Json.num 1), ("method", Json.str "tools/list") ]
    { jsonrpc := "2.0", id := Json.num 1, method := "tools/list", params := Json.null }
    rfl rfl

/-- C9: a JSON object without an `id` member fails structural decoding
(the `id` field of `JsonRpcRequest` has no default), and the transport
loop's decode branch answers it with a parse-error response: identifier
`null`, no result, error code `-32700` — it neither dispatches nor stays
silent. -/
theorem missing_id_parse_error (info : ServerInfo) (patterns : List Pattern)
    (members : List (String × Json))
    (hid : lookupKey members "id" = none) :
    (∃ e, decodeRequest (Json.obj members) = Except.error e)
    ∧ (dispatchDecoded info patterns (Json.obj members)).id = Json.null
    ∧ (dispatchDecoded info patterns (Json.obj members)).result = none
    ∧ ∃ err, (dispatchDecoded info patterns (Json.obj members)).error = some err
        ∧ err.code = -32700 := by
  have herr : ∃ e, decodeRequest (Json.obj members) = Except.error e := by
    simp only [decodeRequest]
    rcases h1 : lookupKey members "jsonrpc" with _ | v
    · exact ⟨"missing field jsonrpc", rfl⟩
    · cases v
      case str s => exact ⟨"missing field id", by rw [hid]⟩
      all_goals exact ⟨"invalid type for field jsonrpc", rfl⟩
  obtain ⟨e, he⟩ := herr
  refine ⟨⟨e, he⟩, ?_, ?_, ?_⟩ <;>
    simp [dispatchDecoded, he, JsonRpcResponse.mkError, PARSE_ERROR]

/-- Witness for C9: a well-formed notification (no `id`) receives the
null-id parse-error response. -/
theorem missing_id_parse_error_witness :
    (∃ e, decodeRequest
        (Json.obj [("jsonrpc", Json.str "2.0"), ("method", Json.str "tools/list")])
      = Except.error e)
    ∧ (dispatchDecoded { name := "fabric-atelier", version := "0.1.0" } []
        (Json.obj [("jsonrpc", Json.str "2.0"), ("method", Json.str "tools/list")])).id
      = Json.null
    ∧ (dispatchDecoded { name := "fabric-atelier", version := "0.1.0" } []
        (Json.obj [("jsonrpc", Json.str "2.0"), ("method", Json.str "tools/list")])).result
      = none
    ∧ ∃ err, (dispatchDecoded { name := "fabric-atelier", version := "0.1.0" } []
          (Json.obj [("jsonrpc", Json.str "2.0"), ("method", Json.str "tools/list")])).error
        = some err ∧ err.code = -32700 :=
  missing_id_parse_error { name := "fabric-atelier", version := "0.1.0" } []
    [("jsonrpc", Json.str "2.0"), ("method", Json.str "tools/list")] rfl

/-- C8: the catalog slot is read in one atomic snapshot by `tools/list`
(the whole vector is projected under a single read-lock acquisition) and
replaced in one atomic step by a reload, modelled by interleaving the
read at an arbitrary point `k` of the reload history: against a single
reload from `pre` to `post`, the observed tool count is either the full
pre-reload count or the full post-reload count, never a mixture. -/
theorem tools_list_atomic_snapshot (pre post : List Pattern) (k : Nat) :
    (∀ (id : Json) (catalog : List Pattern),
        handleToolsList catalog id
          = JsonRpcResponse.success id (Json.obj [("tools", Json.arr (toolsProjection catalog))]))
    ∧ ((toolsProjection (catalogAfter pre (List.take k [post]))).length = pre.length
        ∨ (toolsProjection (catalogAfter pre (List.take k [post]))).length = post.length) := by
  refine ⟨fun _ _ => rfl, ?_⟩
  cases k with
  | zero => left; simp [catalogAfter, toolsProjection]
  | succ n => right; simp [catalogAfter, toolsProjection, List.take_succ_cons]

/-- C10: when re-running ingestion fails, `reload_patterns` returns that
error and leaves the catalog slot exactly as it was — the load completes
before the slot is written, so a failed reload never clears or partially
updates the served patterns. -/
theorem reload_failure_preserves_catalog (slot : List Pattern)
    (listing : Except String (List Entry)) (e : String)
    (h : loadAll listing = Except.error e) :
    reload_patterns slot listing = (Except.error e, slot) := by
  unfold reload_patterns
  rw [h]

/-- Witness for C10: a failing directory listing leaves a one-pattern
catalog untouched and surfaces the error. -/
theorem reload_failure_preserves_catalog_witness :
    reload_patterns
        [ { name := "summarize", description := "Summarize content",
            systemPrompt := "You are a summarizer", userPrompt := none,
            category := none, tags := [], path := "patterns/summarize", modified := 0 } ]
        (Except.error "directory vanished")
      = (Except.error "directory vanished",
          [ { name := "summarize", description := "Summarize content",
              systemPrompt := "You are a summarizer", userPrompt := none,
              category := none, tags := [], path := "patterns/summarize", modified := 0 } ]) :=
  reload_failure_preserves_catalog
    [ { name := "summarize", description := "Summarize content",
        systemPrompt := "You are a summarizer", userPrompt := none,
        category := none, tags := [], path := "patterns/summarize", modified := 0 } ]
    (Except.error "directory vanished") "directory vanished" rfl
